import Mathlib

/-!
Shallow embedding of `swap/cheque.go` (package `swap`): the cheque byte
codec (`encodeForSignature`, `sigHash`), signature creation/verification
(`Sign`, `VerifySig`), structural equality (`Equal`), and the progression
validators (`verifyChequeProperties`, `verifyChequeAgainstLast`).

Bytes are modelled as `Nat` (values < 256 where the source guarantees it),
byte slices as `List Nat`, Go `uint64` as `Nat` with explicit `% 2 ^ 64`
where the source's arithmetic can wrap, `nil`-able byte slices as
`Option (List Nat)`, and fallible functions as `Except`.

The cryptographic primitives (`crypto.Keccak256`, `crypto.Sign`,
`crypto.SigToPub`, `crypto.PubkeyToAddress`) come from the external
go-ethereum library, not from this repository; they are abstracted as the
fields of a `CryptoModel`, and theorems about signing state the library's
documented contract (65-byte signature, recovery id 0 or 1, public-key
recovery) as explicit hypotheses.
-/

namespace Swap

/-- A 20-byte Ethereum address (`common.Address`); `val` is its byte
sequence, as produced by `Address.Bytes()`. -/
def Address : Type := { l : List Nat // l.length = 20 }

instance : DecidableEq Address := fun a b =>
  decidable_of_iff (a.val = b.val) Subtype.ext_iff.symm

/-- Modelled from the spec: the `Cheque` struct itself is declared outside
the given fragment; its fields are those listed in the spec's data model
and used by `cheque.go`: `Contract`, `Beneficiary` (addresses), `Serial`,
`Amount`, `Timeout`, `Honey` (uint64), and the `nil`-able `Signature`
byte slice. -/
structure Cheque where
  Contract : Address
  Beneficiary : Address
  Serial : Nat
  Amount : Nat
  Timeout : Nat
  Honey : Nat
  Signature : Option (List Nat)

/-- Modelled from the spec: the `Peer` collaborator exposes the channel's
expected settlement-contract address and the counterparty's signing
identity, read by `verifyChequeProperties`. -/
structure Peer where
  contractAddress : Address
  beneficiary : Address

/-- The error values returned by the functions of `cheque.go`; each
constructor corresponds to one `fmt.Errorf` site (or to
`ErrInvalidChequeSignature`), carrying the same data the message reports. -/
inductive SwapError where
  | sigNil : SwapError
  | sigInvalidLength (len : Nat) : SwapError
  | sigRecoveryFailed : SwapError
  | invalidChequeSignature : SwapError
  | wrongContract (expected actual : Address) : SwapError
  | wrongBeneficiary (expected actual : Address) : SwapError
  | wrongTimeout (actual : Nat) : SwapError
  | serialNotIncreasing (lastSerial serial : Nat) : SwapError
  | amountNotIncreasing (lastAmount amount : Nat) : SwapError
  | unexpectedAmount (expected actual : Nat) : SwapError
deriving DecidableEq

/-- Embedding of `binary.BigEndian.PutUint64`: the eight big-endian bytes of a uint64
(`b[0] = byte(v >> 56), ..., b[7] = byte(v)`; `byte(..)` truncates mod 256). -/
def putUint64BE (v : Nat) : List Nat :=
  [v / 2 ^ 56 % 256, v / 2 ^ 48 % 256, v / 2 ^ 40 % 256, v / 2 ^ 32 % 256,
   v / 2 ^ 24 % 256, v / 2 ^ 16 % 256, v / 2 ^ 8 % 256, v % 256]

/-- A uint64 written into the last 8 bytes of a zeroed 32-byte array, as
`cheque.go` builds `serialBytes`, `amountBytes`, `timeoutBytes`. -/
def uint64To32BE (v : Nat) : List Nat :=
  List.replicate 24 0 ++ putUint64BE v

/-- Embedding of `(*Cheque).encodeForSignature`: contract bytes ‖ beneficiary bytes ‖
serial ‖ amount ‖ timeout, the three integers each as 32-byte big-endian. -/
def Cheque.encodeForSignature (cheque : Cheque) : List Nat :=
  cheque.Contract.val ++ cheque.Beneficiary.val ++
    uint64To32BE cheque.Serial ++ uint64To32BE cheque.Amount ++
    uint64To32BE cheque.Timeout

/-- The byte sequence of the string `"\x19Ethereum Signed Message:\n"`. -/
def ethMsgTag : List Nat :=
  (String.toList "\x19Ethereum Signed Message:\n").map Char.toNat

/-- The ASCII bytes of the decimal representation of `n` (Go `%d`). -/
def decimalBytes (n : Nat) : List Nat :=
  (Nat.toDigits 10 n).map Char.toNat

/-- Embedding of `(*Cheque).sigHash`: Keccak256 of the encoding, wrapped in the
`eth_sign` personal-message convention and hashed again.  `keccak` is the
external `crypto.Keccak256` primitive, passed in abstractly. -/
def Cheque.sigHash (cheque : Cheque) (keccak : List Nat → List Nat) : List Nat :=
  let encoded := cheque.encodeForSignature
  let input := keccak encoded
  let withTag := ethMsgTag ++ decimalBytes input.length ++ input
  keccak withTag

/-- The external cryptographic primitives used by `cheque.go`, abstracted:
`keccak` is `crypto.Keccak256`; `cryptoSign hash key` is `crypto.Sign`
(`none` models its error return); `sigToPub hash sig` is `crypto.SigToPub`
(`none` models its error return); `pubkeyToAddress` is
`crypto.PubkeyToAddress`; `privToPub` maps a private key to its public key
(`prv.PublicKey`). -/
structure CryptoModel where
  PrivKey : Type
  PubKey : Type
  keccak : List Nat → List Nat
  cryptoSign : List Nat → PrivKey → Option (List Nat)
  sigToPub : List Nat → List Nat → Option PubKey
  pubkeyToAddress : PubKey → Address
  privToPub : PrivKey → PubKey

/-- Embedding of `(*Cheque).Sign`: sign the sigHash with the private key, then add 27
to the final (recovery-id) byte; the addition is byte arithmetic, hence
the `% 256`. -/
def Cheque.Sign (cheque : Cheque) (M : CryptoModel) (prv : M.PrivKey) :
    Option (List Nat) :=
  match M.cryptoSign (cheque.sigHash M.keccak) prv with
  | none => none
  | some sig => some (sig.dropLast ++ [(sig.getLastD 0 + 27) % 256])

/-- Embedding of `(*Cheque).VerifySig`: fail on a `nil` signature, fail on a length
other than 65, otherwise subtract 27 from the recovery byte (byte
arithmetic: `v - 27 ≡ v + 229 (mod 256)`), recover the public key and
compare its address with the expected signer. -/
def Cheque.VerifySig (cheque : Cheque) (M : CryptoModel)
    (expectedSigner : Address) : Except SwapError Unit :=
  let hash := cheque.sigHash M.keccak
  match cheque.Signature with
  | none => Except.error SwapError.sigNil
  | some s =>
    if s.length ≠ 65 then Except.error (SwapError.sigInvalidLength s.length)
    else
      let sig := s.dropLast ++ [(s.getLastD 0 + 229) % 256]
      match M.sigToPub hash sig with
      | none => Except.error SwapError.sigRecoveryFailed
      | some pubKey =>
        if M.pubkeyToAddress pubKey ≠ expectedSigner then
          Except.error SwapError.invalidChequeSignature
        else Except.ok ()

/-- Embedding of `bytes.Equal` on `nil`-able byte slices: compares contents, with the
`nil` slice equal to the empty slice. -/
def bytesEqual (a b : Option (List Nat)) : Bool :=
  a.getD [] == b.getD []

/-- Embedding of `(*Cheque).Equal`: field-by-field comparison of `Serial`,
`Beneficiary`, `Amount`, `Timeout`, `Honey` and (byte-wise) `Signature`.
The `Contract` field is not compared. -/
def Cheque.Equal (cheque other : Cheque) : Bool :=
  if cheque.Serial ≠ other.Serial then false
  else if cheque.Beneficiary ≠ other.Beneficiary then false
  else if cheque.Amount ≠ other.Amount then false
  else if cheque.Timeout ≠ other.Timeout then false
  else if cheque.Honey ≠ other.Honey then false
  else if ¬ bytesEqual cheque.Signature other.Signature then false
  else true

/-- Embedding of `(*Cheque).verifyChequeProperties`: contract match, signature by the
peer's beneficiary identity, beneficiary match, and zero timeout, checked
in that order. -/
def Cheque.verifyChequeProperties (cheque : Cheque) (M : CryptoModel)
    (p : Peer) (expectedBeneficiary : Address) : Except SwapError Unit :=
  if cheque.Contract ≠ p.contractAddress then
    Except.error (SwapError.wrongContract p.contractAddress cheque.Contract)
  else
    match cheque.VerifySig M p.beneficiary with
    | Except.error e => Except.error e
    | Except.ok _ =>
      if cheque.Beneficiary ≠ expectedBeneficiary then
        Except.error
          (SwapError.wrongBeneficiary expectedBeneficiary cheque.Beneficiary)
      else if cheque.Timeout ≠ 0 then
        Except.error (SwapError.wrongTimeout cheque.Timeout)
      else Except.ok ()

/-- Go `uint64` subtraction: `a - b` computed modulo `2 ^ 64`. -/
def sub64 (a b : Nat) : Nat :=
  (a + (2 ^ 64 - b % 2 ^ 64)) % 2 ^ 64

/-- Embedding of `(*Cheque).verifyChequeAgainstLast`: with a previous cheque, require
strictly larger serial and amount and subtract the previous amount (uint64
arithmetic); then require the actual amount to equal the expected one. -/
def Cheque.verifyChequeAgainstLast (cheque : Cheque)
    (lastCheque : Option Cheque) (expectedAmount : Nat) :
    Except SwapError Nat :=
  match
    (match lastCheque with
     | none => Except.ok cheque.Amount
     | some last =>
       if cheque.Serial ≤ last.Serial then
         Except.error (SwapError.serialNotIncreasing last.Serial cheque.Serial)
       else if cheque.Amount ≤ last.Amount then
         Except.error (SwapError.amountNotIncreasing last.Amount cheque.Amount)
       else Except.ok (sub64 cheque.Amount last.Amount)) with
  | Except.error e => Except.error e
  | Except.ok actualAmount =>
    if expectedAmount ≠ actualAmount then
      Except.error (SwapError.unexpectedAmount expectedAmount actualAmount)
    else Except.ok actualAmount

/-! Concrete values used by the witness theorems. -/

def addr0 : Address := ⟨List.replicate 20 0, by decide⟩

def addr1 : Address := ⟨1 :: List.replicate 19 0, by decide⟩

def addr2 : Address := ⟨2 :: List.replicate 19 0, by decide⟩

def cheque1 : Cheque := ⟨addr1, addr2, 1, 100, 0, 7, none⟩

def cheque2 : Cheque := ⟨addr1, addr2, 2, 150, 0, 9, some [1, 2, 3]⟩

def cheque3 : Cheque := ⟨addr0, addr2, 1, 100, 0, 7, none⟩

def cheque5 : Cheque := ⟨addr1, addr2, 1, 100, 5, 0, none⟩

/-- A concrete instantiation of the abstract cryptographic primitives,
used by the witness theorems: keys are naturals, a signature carries the
public key in its first byte and recovery id 0 in its last. -/
def toyCrypto : CryptoModel where
  PrivKey := Nat
  PubKey := Nat
  keccak := fun l => List.replicate 32 (l.length % 256)
  cryptoSign := fun _ k => some ((k % 256 :: List.replicate 63 0) ++ [0])
  sigToPub := fun _ s => some (s.headD 0)
  pubkeyToAddress := fun p => ⟨p % 256 :: List.replicate 19 0, by simp⟩
  privToPub := fun k => k % 256

/-- Restatement of `Equal` as a flat boolean conjunction of the six field comparisons. -/
lemma Equal_eq (c1 c2 : Cheque) :
    c1.Equal c2 =
      (decide (c1.Serial = c2.Serial) &&
       decide (c1.Beneficiary = c2.Beneficiary) &&
       decide (c1.Amount = c2.Amount) && decide (c1.Timeout = c2.Timeout) &&
       decide (c1.Honey = c2.Honey) &&
       bytesEqual c1.Signature c2.Signature) := by
  unfold Cheque.Equal
  split_ifs <;> simp_all

/-- C1: with a previous cheque, `verifyChequeAgainstLast` fails whenever
the serial or the amount does not strictly increase; and whenever both
strictly increase and the amount difference equals the expected amount,
it succeeds and returns that difference. -/
theorem C1_monotonicity (cheque last : Cheque) (expectedAmount : Nat)
    (hc : cheque.Amount < 2 ^ 64) (hl : last.Amount < 2 ^ 64) :
    ((cheque.Serial ≤ last.Serial ∨ cheque.Amount ≤ last.Amount) →
      ∃ e, cheque.verifyChequeAgainstLast (some last) expectedAmount =
        Except.error e)
    ∧ (last.Serial < cheque.Serial → last.Amount < cheque.Amount →
        cheque.Amount - last.Amount = expectedAmount →
        cheque.verifyChequeAgainstLast (some last) expectedAmount =
          Except.ok (cheque.Amount - last.Amount)) := by
  constructor
  · intro h
    by_cases h1 : cheque.Serial ≤ last.Serial
    · exact ⟨SwapError.serialNotIncreasing last.Serial cheque.Serial,
        by simp [Cheque.verifyChequeAgainstLast, h1]⟩
    · have h2 : cheque.Amount ≤ last.Amount := by tauto
      exact ⟨SwapError.amountNotIncreasing last.Amount cheque.Amount,
        by simp [Cheque.verifyChequeAgainstLast, h1, h2]⟩
  · intro hs ha he
    have h1 : ¬ cheque.Serial ≤ last.Serial := by omega
    have h2 : ¬ cheque.Amount ≤ last.Amount := by omega
    have hsub : sub64 cheque.Amount last.Amount =
        cheque.Amount - last.Amount := by
      unfold sub64; omega
    simp [Cheque.verifyChequeAgainstLast, h1, h2, hsub, he]

/-- Witness for C1 at scenario B: last cheque serial 1 / amount 100, new
cheque serial 2 / amount 150, expected amount 50. -/
theorem C1_monotonicity_witness :
    cheque2.verifyChequeAgainstLast (some cheque1) 50 =
      Except.ok (cheque2.Amount - cheque1.Amount) :=
  (C1_monotonicity cheque2 cheque1 50 (by decide) (by decide)).2
    (by decide) (by decide) (by decide)

/-- C8: with no previous cheque, no comparison is made, the actual amount
is the cheque's amount, and the call succeeds with that amount exactly
when it equals the expected amount. -/
theorem C8_first_cheque (cheque : Cheque) (expectedAmount : Nat) :
    (cheque.verifyChequeAgainstLast none expectedAmount =
        Except.ok cheque.Amount ↔ expectedAmount = cheque.Amount)
    ∧ (expectedAmount ≠ cheque.Amount →
        cheque.verifyChequeAgainstLast none expectedAmount =
          Except.error
            (SwapError.unexpectedAmount expectedAmount cheque.Amount)) := by
  by_cases h : expectedAmount = cheque.Amount
  · simp [Cheque.verifyChequeAgainstLast, h]
  · simp [Cheque.verifyChequeAgainstLast, h]

/-- Witness for C8: a first cheque of amount 100 against expected 100. -/
theorem C8_first_cheque_witness :
    cheque1.verifyChequeAgainstLast none 100 = Except.ok cheque1.Amount :=
  (C8_first_cheque cheque1 100).1.mpr (by decide)

/-- C10: whenever `verifyChequeAgainstLast` succeeds against a previous
cheque, the uint64 subtraction did not wrap: the returned amount plus the
previous amount equals the cheque's amount exactly (over ℕ). -/
theorem C10_no_wraparound (cheque last : Cheque) (expectedAmount v : Nat)
    (hc : cheque.Amount < 2 ^ 64) (hl : last.Amount < 2 ^ 64)
    (hok : cheque.verifyChequeAgainstLast (some last) expectedAmount =
      Except.ok v) :
    last.Amount < cheque.Amount ∧ v + last.Amount = cheque.Amount := by
  by_cases h1 : cheque.Serial ≤ last.Serial
  · simp [Cheque.verifyChequeAgainstLast, h1] at hok
  · by_cases h2 : cheque.Amount ≤ last.Amount
    · simp [Cheque.verifyChequeAgainstLast, h1, h2] at hok
    · by_cases h3 : expectedAmount = sub64 cheque.Amount last.Amount
      · simp [Cheque.verifyChequeAgainstLast, h1, h2, h3] at hok
        subst hok
        refine ⟨by omega, ?_⟩
        unfold sub64
        omega
      · simp [Cheque.verifyChequeAgainstLast, h1, h2, h3] at hok

/-- Witness for C10: the successful scenario-B run does not wrap. -/
theorem C10_no_wraparound_witness :
    cheque1.Amount < cheque2.Amount ∧ 50 + cheque1.Amount = cheque2.Amount :=
  C10_no_wraparound cheque2 cheque1 50 50 (by decide) (by decide) (by rfl)

/-- C5 counterexample: two cheques that differ in the `Contract` field
(and in no other field) are reported equal — `Equal` does not compare
`Contract`, so the claim as stated is false. -/
theorem C5_counterexample :
    cheque1.Contract ≠ cheque3.Contract ∧ cheque1.Equal cheque3 = true := by
  decide

/-- C5 (amended): `Equal` is reflexive and symmetric; it returns `false`
whenever any of the six compared fields — serial, beneficiary, amount,
timeout, honey, or byte-wise signature contents (with `nil` equal to the
empty slice) — differs; and it ignores the `Contract` field entirely. -/
theorem C5_equal_amended (c1 c2 : Cheque) :
    c1.Equal c1 = true
    ∧ c1.Equal c2 = c2.Equal c1
    ∧ ((c1.Serial ≠ c2.Serial ∨ c1.Beneficiary ≠ c2.Beneficiary ∨
        c1.Amount ≠ c2.Amount ∨ c1.Timeout ≠ c2.Timeout ∨
        c1.Honey ≠ c2.Honey ∨
        c1.Signature.getD [] ≠ c2.Signature.getD []) →
        c1.Equal c2 = false)
    ∧ (∀ a : Address,
        Cheque.Equal { c1 with Contract := a } c2 = c1.Equal c2) := by
  refine ⟨?_, ?_, ?_, fun a => rfl⟩
  · simp [Equal_eq, bytesEqual]
  · simp only [Equal_eq, bytesEqual]
    by_cases h1 : c1.Serial = c2.Serial <;>
      by_cases h2 : c1.Beneficiary = c2.Beneficiary <;>
      by_cases h3 : c1.Amount = c2.Amount <;>
      by_cases h4 : c1.Timeout = c2.Timeout <;>
      by_cases h5 : c1.Honey = c2.Honey <;>
      by_cases h6 : c1.Signature.getD [] = c2.Signature.getD [] <;>
      simp_all [eq_comm]
  · intro h
    rcases h with h | h | h | h | h | h <;> simp [Equal_eq, bytesEqual, h]

/-- Witness for the amended C5: two cheques with different serials are
not `Equal`. -/
theorem C5_equal_amended_witness : cheque1.Equal cheque2 = false :=
  (C5_equal_amended cheque1 cheque2).2.2.1 (Or.inl (by decide))

/-- C4: `VerifySig` returns an explicit error on a `nil` signature and on
any signature length other than 65; in those cases the result does not
depend on the cryptographic primitives or on the expected signer at all,
so no public-key recovery is attempted. -/
theorem C4_sig_checks (M M2 : CryptoModel) (cheque : Cheque)
    (expectedSigner e2 : Address) :
    (cheque.Signature = none →
      cheque.VerifySig M expectedSigner = Except.error SwapError.sigNil)
    ∧ (∀ s, cheque.Signature = some s → s.length ≠ 65 →
        cheque.VerifySig M expectedSigner =
          Except.error (SwapError.sigInvalidLength s.length))
    ∧ ((cheque.Signature = none ∨
        ∃ s, cheque.Signature = some s ∧ s.length ≠ 65) →
        cheque.VerifySig M expectedSigner = cheque.VerifySig M2 e2) := by
  refine ⟨fun hn => by simp [Cheque.VerifySig, hn], ?_, ?_⟩
  · intro s hs hlen
    simp [Cheque.VerifySig, hs, hlen]
  · intro h
    rcases h with hn | ⟨s, hs, hlen⟩
    · simp [Cheque.VerifySig, hn]
    · simp [Cheque.VerifySig, hs, hlen]

/-- Witness for C4: a signature-less cheque fails with the `nil` error. -/
theorem C4_sig_checks_witness :
    cheque1.VerifySig toyCrypto addr0 = Except.error SwapError.sigNil :=
  (C4_sig_checks toyCrypto toyCrypto cheque1 addr0 addr0).1 rfl

/-- C2: `verifyChequeProperties` succeeds exactly when the contract
matches the peer's contract address, the signature verifies against the
peer's beneficiary identity, the beneficiary matches the expected one,
and the timeout is zero; in particular a cheque with timeout 5 always
fails. -/
theorem C2_verifyChequeProperties (M : CryptoModel) (cheque : Cheque)
    (p : Peer) (expectedBeneficiary : Address) :
    (cheque.verifyChequeProperties M p expectedBeneficiary = Except.ok () ↔
      (cheque.Contract = p.contractAddress ∧
       cheque.VerifySig M p.beneficiary = Except.ok () ∧
       cheque.Beneficiary = expectedBeneficiary ∧ cheque.Timeout = 0))
    ∧ (cheque.Timeout = 5 →
        ∃ e, cheque.verifyChequeProperties M p expectedBeneficiary =
          Except.error e) := by
  constructor
  · by_cases h1 : cheque.Contract = p.contractAddress
    · cases hv : cheque.VerifySig M p.beneficiary with
      | error e => simp [Cheque.verifyChequeProperties, h1, hv]
      | ok u =>
        by_cases h3 : cheque.Beneficiary = expectedBeneficiary
        · by_cases h4 : cheque.Timeout = 0 <;>
            simp [Cheque.verifyChequeProperties, h1, hv, h3, h4]
        · simp [Cheque.verifyChequeProperties, h1, hv, h3]
    · simp [Cheque.verifyChequeProperties, h1]
  · intro h5
    by_cases h1 : cheque.Contract = p.contractAddress
    · cases hv : cheque.VerifySig M p.beneficiary with
      | error e => exact ⟨e, by simp [Cheque.verifyChequeProperties, h1, hv]⟩
      | ok u =>
        by_cases h3 : cheque.Beneficiary = expectedBeneficiary
        · exact ⟨SwapError.wrongTimeout cheque.Timeout,
            by simp [Cheque.verifyChequeProperties, h1, hv, h3, h5]⟩
        · exact ⟨SwapError.wrongBeneficiary expectedBeneficiary
            cheque.Beneficiary,
            by simp [Cheque.verifyChequeProperties, h1, hv, h3]⟩
    · exact ⟨SwapError.wrongContract p.contractAddress cheque.Contract,
        by simp [Cheque.verifyChequeProperties, h1]⟩

/-- Witness for C2 at scenario D: a cheque with timeout 5 is rejected. -/
theorem C2_verifyChequeProperties_witness :
    ∃ e, cheque5.verifyChequeProperties toyCrypto ⟨addr1, addr2⟩ addr2 =
      Except.error e :=
  (C2_verifyChequeProperties toyCrypto cheque5 ⟨addr1, addr2⟩ addr2).2 rfl

/-! Byte-level helpers for the codec claims. -/

/-- The value of a big-endian byte sequence. -/
def beVal (l : List Nat) : Nat :=
  l.foldl (fun acc b => acc * 256 + b) 0

def cheque4 : Cheque := ⟨addr1, addr2, 1, 100, 0, 55, some [9]⟩

lemma foldl_be_zeros (n : Nat) :
    (List.replicate n 0).foldl (fun acc b => acc * 256 + b) 0 = 0 := by
  induction n with
  | zero => rfl
  | succ m ih => simpa [List.replicate_succ] using ih

lemma beVal_zeros_append (n : Nat) (l : List Nat) :
    beVal (List.replicate n 0 ++ l) = beVal l := by
  simp [beVal, List.foldl_append, foldl_be_zeros]

lemma beVal_putUint64BE (v : Nat) (h : v < 2 ^ 64) :
    beVal (putUint64BE v) = v := by
  simp only [beVal, putUint64BE, List.foldl]
  omega

lemma beVal_uint64To32BE (v : Nat) (h : v < 2 ^ 64) :
    beVal (uint64To32BE v) = v := by
  rw [uint64To32BE, beVal_zeros_append, beVal_putUint64BE v h]

lemma uint64To32BE_length (v : Nat) : (uint64To32BE v).length = 32 := by
  simp [uint64To32BE, putUint64BE]

lemma uint64To32BE_inj {v1 v2 : Nat} (h1 : v1 < 2 ^ 64) (h2 : v2 < 2 ^ 64)
    (h : uint64To32BE v1 = uint64To32BE v2) : v1 = v2 := by
  rw [← beVal_uint64To32BE v1 h1, ← beVal_uint64To32BE v2 h2, h]

lemma encode_split (c : Cheque) :
    c.encodeForSignature =
      c.Contract.val ++ (c.Beneficiary.val ++ (uint64To32BE c.Serial ++
        (uint64To32BE c.Amount ++ uint64To32BE c.Timeout))) := by
  simp [Cheque.encodeForSignature, List.append_assoc]

lemma encode_take20 (c : Cheque) :
    c.encodeForSignature.take 20 = c.Contract.val := by
  rw [encode_split, List.take_left' c.Contract.property]

lemma encode_drop20 (c : Cheque) :
    c.encodeForSignature.drop 20 =
      c.Beneficiary.val ++ (uint64To32BE c.Serial ++
        (uint64To32BE c.Amount ++ uint64To32BE c.Timeout)) := by
  rw [encode_split, List.drop_left' c.Contract.property]

lemma encode_drop40 (c : Cheque) :
    c.encodeForSignature.drop 40 =
      uint64To32BE c.Serial ++
        (uint64To32BE c.Amount ++ uint64To32BE c.Timeout) := by
  have h40 : (40 : Nat) = 20 + 20 := rfl
  rw [h40, ← List.drop_drop, encode_drop20,
    List.drop_left' c.Beneficiary.property]

lemma encode_drop72 (c : Cheque) :
    c.encodeForSignature.drop 72 =
      uint64To32BE c.Amount ++ uint64To32BE c.Timeout := by
  have h72 : (72 : Nat) = 40 + 32 := rfl
  rw [h72, ← List.drop_drop, encode_drop40,
    List.drop_left' (uint64To32BE_length c.Serial)]

lemma encode_drop104 (c : Cheque) :
    c.encodeForSignature.drop 104 = uint64To32BE c.Timeout := by
  have h104 : (104 : Nat) = 72 + 32 := rfl
  rw [h104, ← List.drop_drop, encode_drop72,
    List.drop_left' (uint64To32BE_length c.Amount)]

lemma encode_serial_seg (c : Cheque) :
    (c.encodeForSignature.drop 40).take 32 = uint64To32BE c.Serial := by
  rw [encode_drop40, List.take_left' (uint64To32BE_length c.Serial)]

lemma encode_amount_seg (c : Cheque) :
    (c.encodeForSignature.drop 72).take 32 = uint64To32BE c.Amount := by
  rw [encode_drop72, List.take_left' (uint64To32BE_length c.Amount)]

lemma encode_timeout_seg (c : Cheque) :
    (c.encodeForSignature.drop 104).take 32 = uint64To32BE c.Timeout := by
  rw [encode_drop104, List.take_of_length_le (by
    rw [uint64To32BE_length])]

lemma encode_beneficiary_seg (c : Cheque) :
    (c.encodeForSignature.drop 20).take 20 = c.Beneficiary.val := by
  rw [encode_drop20, List.take_left' c.Beneficiary.property]

lemma uint64To32BE_high_zero (v : Nat) :
    (uint64To32BE v).take 24 = List.replicate 24 0 := by
  rw [uint64To32BE, List.take_left' (by simp)]

lemma encodeForSignature_length (c : Cheque) :
    c.encodeForSignature.length = 136 := by
  simp [Cheque.encodeForSignature, uint64To32BE, putUint64BE,
    c.Contract.property, c.Beneficiary.property]

/-- C6: the encoding is contract bytes ‖ beneficiary bytes ‖ serial ‖
amount ‖ timeout; each integer field is a 32-byte segment whose first 24
bytes are zero and whose big-endian value is the uint64 value; the total
length is 136 bytes. -/
theorem C6_encoding_shape (c : Cheque) (hs : c.Serial < 2 ^ 64)
    (ha : c.Amount < 2 ^ 64) (ht : c.Timeout < 2 ^ 64) :
    c.encodeForSignature.length = 136
    ∧ c.encodeForSignature.take 20 = c.Contract.val
    ∧ (c.encodeForSignature.drop 20).take 20 = c.Beneficiary.val
    ∧ ((c.encodeForSignature.drop 40).take 32).take 24 = List.replicate 24 0
    ∧ beVal ((c.encodeForSignature.drop 40).take 32) = c.Serial
    ∧ ((c.encodeForSignature.drop 72).take 32).take 24 = List.replicate 24 0
    ∧ beVal ((c.encodeForSignature.drop 72).take 32) = c.Amount
    ∧ ((c.encodeForSignature.drop 104).take 32).take 24 =
        List.replicate 24 0
    ∧ beVal ((c.encodeForSignature.drop 104).take 32) = c.Timeout := by
  refine ⟨encodeForSignature_length c, encode_take20 c,
    encode_beneficiary_seg c, ?_, ?_, ?_, ?_, ?_, ?_⟩
  · rw [encode_serial_seg, uint64To32BE_high_zero]
  · rw [encode_serial_seg, beVal_uint64To32BE c.Serial hs]
  · rw [encode_amount_seg, uint64To32BE_high_zero]
  · rw [encode_amount_seg, beVal_uint64To32BE c.Amount ha]
  · rw [encode_timeout_seg, uint64To32BE_high_zero]
  · rw [encode_timeout_seg, beVal_uint64To32BE c.Timeout ht]

/-- Witness for C6 at a concrete cheque. -/
theorem C6_encoding_shape_witness :
    cheque2.encodeForSignature.length = 136 :=
  (C6_encoding_shape cheque2 (by decide) (by decide) (by decide)).1

/-- C7: the encoding is injective over the (contract, beneficiary,
serial, amount, timeout) value space — equal encodings force equal
tuples, so tuples that differ in any component encode differently. -/
theorem C7_encoding_injective (c1 c2 : Cheque)
    (h1 : c1.Serial < 2 ^ 64) (h2 : c1.Amount < 2 ^ 64)
    (h3 : c1.Timeout < 2 ^ 64) (h4 : c2.Serial < 2 ^ 64)
    (h5 : c2.Amount < 2 ^ 64) (h6 : c2.Timeout < 2 ^ 64)
    (he : c1.encodeForSignature = c2.encodeForSignature) :
    c1.Contract = c2.Contract ∧ c1.Beneficiary = c2.Beneficiary ∧
    c1.Serial = c2.Serial ∧ c1.Amount = c2.Amount ∧
    c1.Timeout = c2.Timeout := by
  refine ⟨?_, ?_, ?_, ?_, ?_⟩
  · have h := congrArg (fun l => List.take 20 l) he
    simp only [encode_take20] at h
    exact Subtype.ext h
  · have h := congrArg (fun l => List.take 20 (List.drop 20 l)) he
    simp only [encode_beneficiary_seg] at h
    exact Subtype.ext h
  · have h := congrArg (fun l => List.take 32 (List.drop 40 l)) he
    simp only [encode_serial_seg] at h
    exact uint64To32BE_inj h1 h4 h
  · have h := congrArg (fun l => List.take 32 (List.drop 72 l)) he
    simp only [encode_amount_seg] at h
    exact uint64To32BE_inj h2 h5 h
  · have h := congrArg (fun l => List.take 32 (List.drop 104 l)) he
    simp only [encode_timeout_seg] at h
    exact uint64To32BE_inj h3 h6 h

/-- Witness for C7: two cheques with the same five encoded fields (and
different honey and signature) have equal encodings, and the theorem
recovers the field equalities. -/
theorem C7_encoding_injective_witness :
    cheque1.Serial = cheque4.Serial :=
  (C7_encoding_injective cheque1 cheque4 (by decide) (by decide)
    (by decide) (by decide) (by decide) (by decide) rfl).2.2.1

/-- C9: cheques agreeing on contract, beneficiary, serial, amount and
timeout have identical encodings and identical signing hashes, whatever
their honey and signature fields and whatever the hash primitive. -/
theorem C9_encoding_ignores_honey_sig (c1 c2 : Cheque)
    (hco : c1.Contract = c2.Contract) (hb : c1.Beneficiary = c2.Beneficiary)
    (hs : c1.Serial = c2.Serial) (ha : c1.Amount = c2.Amount)
    (ht : c1.Timeout = c2.Timeout) :
    c1.encodeForSignature = c2.encodeForSignature
    ∧ ∀ keccak : List Nat → List Nat,
        c1.sigHash keccak = c2.sigHash keccak := by
  have he : c1.encodeForSignature = c2.encodeForSignature := by
    simp [Cheque.encodeForSignature, hco, hb, hs, ha, ht]
  exact ⟨he, fun keccak => by simp [Cheque.sigHash, he]⟩

/-- Witness for C9: `cheque1` and `cheque4` differ only in honey and
signature and share an encoding. -/
theorem C9_encoding_ignores_honey_sig_witness :
    cheque1.encodeForSignature = cheque4.encodeForSignature :=
  (C9_encoding_ignores_honey_sig cheque1 cheque4 rfl rfl rfl rfl rfl).1

lemma dropLast_append_getLastD (l : List Nat) (d : Nat) (h : l ≠ []) :
    l.dropLast ++ [l.getLastD d] = l := by
  induction l with
  | nil => exact absurd rfl h
  | cons a t ih =>
    cases t with
    | nil => rfl
    | cons b t2 =>
      have h2 := ih (by simp)
      simpa using congrArg (List.cons a) h2

/-- C3: for any cryptographic primitives satisfying the go-ethereum
contract of `crypto.Sign` (a 65-byte signature with raw recovery byte 0
or 1, from which `crypto.SigToPub` recovers the signer's public key),
`Sign` followed by `VerifySig` against the key's address succeeds: the
`+ 27` applied by `Sign` and the `- 27` applied by `VerifySig` cancel. -/
theorem C3_sign_verify_roundtrip (M : CryptoModel) (cheque : Cheque)
    (prv : M.PrivKey) (sig : List Nat)
    (hlen : ∀ h s, M.cryptoSign h prv = some s → s.length = 65)
    (hrec : ∀ h s, M.cryptoSign h prv = some s → s.getLastD 0 ≤ 1)
    (hpub : ∀ h s, M.cryptoSign h prv = some s →
      M.sigToPub h s = some (M.privToPub prv))
    (hsig : cheque.Sign M prv = some sig) :
    Cheque.VerifySig { cheque with Signature := some sig } M
      (M.pubkeyToAddress (M.privToPub prv)) = Except.ok () := by
  rcases h0 : M.cryptoSign (cheque.sigHash M.keccak) prv with _ | s0
  · rw [Cheque.Sign, h0] at hsig
    exact absurd hsig (by simp)
  · rw [Cheque.Sign, h0] at hsig
    have hsig' : sig = s0.dropLast ++ [(s0.getLastD 0 + 27) % 256] :=
      (Option.some.inj hsig).symm
    have h65 : s0.length = 65 := hlen _ s0 h0
    have hv : s0.getLastD 0 ≤ 1 := hrec _ s0 h0
    have hrecover := hpub _ s0 h0
    have hlen' : sig.length = 65 := by
      rw [hsig']
      simp [h65]
    have hne : s0 ≠ [] := by
      intro hl
      rw [hl] at h65
      simp at h65
    have hmod1 : (s0.getLastD 0 + 27) % 256 = s0.getLastD 0 + 27 := by omega
    have hrebuild : sig.dropLast ++ [(sig.getLastD 0 + 229) % 256] = s0 := by
      rw [hsig', List.dropLast_concat, List.getLastD_concat, hmod1]
      have hm : (s0.getLastD 0 + 27 + 229) % 256 = s0.getLastD 0 := by omega
      rw [hm]
      exact dropLast_append_getLastD s0 0 hne
    have hHash : Cheque.sigHash { cheque with Signature := some sig }
        M.keccak = cheque.sigHash M.keccak := rfl
    simp only [Cheque.VerifySig, hHash, hlen', hrebuild, hrecover]
    simp

/-- A concrete private key for the toy model. -/
def toyKey : toyCrypto.PrivKey := (5 : Nat)

/-- Witness for C3: signing `cheque1` in the toy model and verifying the
result against the key's derived address succeeds. -/
theorem C3_sign_verify_roundtrip_witness :
    Cheque.VerifySig
      { cheque1 with
        Signature := some ((5 % 256 :: List.replicate 63 0) ++ [27]) }
      toyCrypto (toyCrypto.pubkeyToAddress (toyCrypto.privToPub toyKey)) =
      Except.ok () :=
  C3_sign_verify_roundtrip toyCrypto cheque1 toyKey
    ((5 % 256 :: List.replicate 63 0) ++ [27])
    (by intro h s hs; injection hs with h1; subst h1; rfl)
    (by intro h s hs; injection hs with h1; subst h1; decide)
    (by intro h s hs; injection hs with h1; subst h1; rfl)
    (by decide)

end Swap
